import Mathlib

/-!
Verification of the account-store access layer of `src/dynamodb/client.py`
(class `DynamoDBManager`).

Shallow embedding notes.

* A stored item is an association list from attribute names to attribute
  values (`Item`), mirroring the Python dict that boto3 serializes.
* The DynamoDB table is a list of items keyed by the `user_id` attribute
  (the partition key declared in `create_table`).
* Backend calls can raise (network faults, `Table not initialized`, ...).
  Each store operation therefore takes an `Option String` fault oracle per
  backend call: `some m` means the call raised an exception whose
  `str(e)` is `m`; `none` means the call reached the backend, whose
  behaviour is then computed from the table following the documented
  DynamoDB semantics.
* The email GSI (`email-index`) is eventually consistent, and the
  pre-check lookup in `insert_user` races with concurrent writers, so the
  query in `get_user_by_email` runs against a caller-supplied snapshot
  `view` of the table, which on the sequential happy path equals the
  current table.
* `hash_password` is SHA-256 hex digest; the digest function is carried
  as an uninterpreted parameter `hashF : String → String`.
* A Python pair `(value, error)` result is rendered as `Except String _`:
  `(x, None) ↦ Except.ok x` and `(None, msg) ↦ Except.error msg`.
-/

/-- Attribute values as stored in DynamoDB items: strings, numbers,
booleans, null, and an opaque document blob standing for the nested
`profile_data` dict, which the store never inspects. -/
inductive DVal where
  | s : String → DVal
  | i : Int → DVal
  | b : Bool → DVal
  | null : DVal
  | doc : String → DVal
deriving DecidableEq

/-- A stored item / deserialized Python dict: attribute name to value. -/
abbrev Item : Type := List (String × DVal)

/-- The table contents: a list of items (keyed by the `user_id` attribute). -/
abbrev Table : Type := List Item

/-- Dict lookup: value of attribute `k`, if present. -/
def getAttr : Item → String → Option DVal
  | [], _ => none
  | p :: rest, k => if p.1 = k then some p.2 else getAttr rest k

/-- Python `k in d` / presence of an attribute. -/
def hasAttr (it : Item) (k : String) : Bool :=
  (getAttr it k).isSome

/-- Python `d.pop(k, None)`: remove attribute `k`. -/
def popAttr : Item → String → Item
  | [], _ => []
  | p :: rest, k => if p.1 = k then popAttr rest k else p :: popAttr rest k

/-- Python `d[k] = v`: replace in place, or append if absent. -/
def setAttr : Item → String → DVal → Item
  | [], k, v => [(k, v)]
  | p :: rest, k, v => if p.1 = k then (k, v) :: rest else p :: setAttr rest k v

/-- The item stored under partition key `user_id = uid`, if any. -/
def lookupKey : Table → String → Option Item
  | [], _ => none
  | it :: rest, uid =>
    if getAttr it "user_id" = some (DVal.s uid) then some it else lookupKey rest uid

/-- Store `newIt` in place of the item(s) keyed by `uid` (the backend
write-back of a keyed update). -/
def replaceAt : Table → String → Item → Table
  | [], _, _ => []
  | it :: rest, uid, newIt =>
    if getAttr it "user_id" = some (DVal.s uid) then newIt :: replaceAt rest uid newIt
    else it :: replaceAt rest uid newIt

/-- Number of items carrying primary key `uid`. -/
def countKey : Table → String → Nat
  | [], _ => 0
  | it :: rest, uid =>
    (if getAttr it "user_id" = some (DVal.s uid) then 1 else 0) + countKey rest uid

/-- Number of items whose `email` attribute equals `e`. -/
def countEmail : Table → String → Nat
  | [], _ => 0
  | it :: rest, e =>
    (if getAttr it "email" = some (DVal.s e) then 1 else 0) + countEmail rest e

/-- Python `str.lower()` as used on emails (ASCII case folding),
written as a structural map so that concrete instances reduce in the
kernel. -/
def pyLower (s : String) : String :=
  String.mk (s.toList.map Char.toLower)

/-- Python truthiness of an attribute value. -/
def truthy : DVal → Bool
  | .s str => str ≠ ""
  | .i n => n ≠ 0
  | .b bb => bb
  | .null => false
  | .doc d => d ≠ ""

/-- `additional_data or {}` (source line 128): Python `or` falls back to
the empty dict when the supplied value is absent or falsy. -/
def additionalOr : Option DVal → DVal
  | some v => if truthy v then v else DVal.doc ""
  | none => DVal.doc ""

/-- Source line 240: `forbidden_fields = ['user_id', 'password_hash', 'created_at']`. -/
def forbidden_fields : List String :=
  ["user_id", "password_hash", "created_at"]

/-- The GSI query of source lines 176-179: all items whose `email`
attribute equals the lowercased email, over the (possibly stale) index
snapshot `view`. -/
def queryEmailIndex : Table → String → List Item
  | [], _ => []
  | it :: rest, email =>
    if getAttr it "email" = some (DVal.s (pyLower email)) then it :: queryEmailIndex rest email
    else queryEmailIndex rest email

/-- `get_user_by_email` (source lines 170-188): query the `email-index`
GSI and return `Items[0]` if any; every exception is caught, logged and
turned into `None` (same value as a miss). `fault = some m` means the
query raised with message `m`. -/
def get_user_by_email (view : Table) (email : String) (fault : Option String) : Option Item :=
  match fault with
  | some _ => none
  | none => (queryEmailIndex view email).head?

/-- `get_user_by_id` (source lines 149-168): `get_item` on the key, pop
`password_hash` from the returned copy; every exception is caught and
turned into `None` (same value as a missing record). -/
def get_user_by_id (t : Table) (uid : String) (fault : Option String) : Option Item :=
  match fault with
  | some _ => none
  | none =>
    match lookupKey t uid with
    | some it => some (popAttr it "password_hash")
    | none => none

/-- The fresh item built by `insert_user` (source lines 117-129), with the
generated uuid `uid` and `datetime.utcnow().isoformat()` timestamp `now`
passed in explicitly. -/
def freshAccountItem (hashF : String → String) (username email password : String)
    (additional : Option DVal) (uid now : String) : Item :=
  [("user_id", DVal.s uid),
   ("username", DVal.s username),
   ("email", DVal.s (pyLower email)),
   ("password_hash", DVal.s (hashF password)),
   ("created_at", DVal.s now),
   ("updated_at", DVal.s now),
   ("verified", DVal.b false),
   ("active", DVal.b true),
   ("login_count", DVal.i 0),
   ("last_login", DVal.null),
   ("profile_data", additionalOr additional)]

/-- `insert_user` (source lines 104-147). Pre-check via
`get_user_by_email` against the eventually-consistent index snapshot
`view`; then `put_item(Item=user_item, ConditionExpression=Attr("email").not_exists())`.
Per DynamoDB semantics a put condition is evaluated against the item
currently stored under the SAME primary key as the item being put
(here the freshly generated `uid`), not against the whole table: if no
item is stored under `uid` the condition `attribute_not_exists(email)`
holds and the put succeeds. `ConditionalCheckFailedException` is mapped
to the duplicate-email error (line 143); any other exception `m` is
returned as `str(e)` (line 147). On success the local dict pops
`password_hash` and is returned. -/
def insert_user (t view : Table) (hashF : String → String)
    (username email password : String) (additional : Option DVal) (uid now : String)
    (preFault putFault : Option String) : Table × Except String Item :=
  match get_user_by_email view email preFault with
  | some _ => (t, Except.error "Email already exists")
  | none =>
    let user_item := freshAccountItem hashF username email password additional uid now
    match putFault with
    | some m => (t, Except.error m)
    | none =>
      match lookupKey t uid with
      | some existing =>
        if hasAttr existing "email" then (t, Except.error "Email already exists")
        else (replaceAt t uid user_item, Except.ok (popAttr user_item "password_hash"))
      | none => (t ++ [user_item], Except.ok (popAttr user_item "password_hash"))

/-- `update_user_login_stats` (source lines 216-231): unconditional
`update_item` with expression
`SET last_login = :time, login_count = login_count + :inc, updated_at = :time`.
The increment reads and adds in one atomic backend step. Any exception is
caught, logged and swallowed (the table is left as it was); in particular
a missing item or missing `login_count` attribute makes the expression
reference an unknown attribute, a backend validation error that is
likewise swallowed. -/
def update_user_login_stats (t : Table) (uid now : String) (fault : Option String) : Table :=
  match fault with
  | some _ => t
  | none =>
    match lookupKey t uid with
    | some it =>
      match getAttr it "login_count" with
      | some (DVal.i n) =>
        replaceAt t uid
          (setAttr (setAttr (setAttr it "last_login" (DVal.s now))
            "login_count" (DVal.i (n + 1))) "updated_at" (DVal.s now))
      | _ => t
    | none => t

/-- `user.get("active", True)` truthiness test of source line 198. -/
def activeFlag (user : Item) : Bool :=
  match getAttr user "active" with
  | some v => truthy v
  | none => true

/-- `authenticate_user` (source lines 190-214): email lookup (against the
index snapshot `view`), active check, byte-for-byte digest comparison,
then `update_user_login_stats` — whose outcome is ignored — and finally
the LOCAL pre-update dict is returned with `password_hash` popped. -/
def authenticate_user (t view : Table) (hashF : String → String)
    (email password now : String) (qFault statsFault : Option String) :
    Table × Except String Item :=
  match get_user_by_email view email qFault with
  | none => (t, Except.error "User not found")
  | some user =>
    if activeFlag user = false then (t, Except.error "Account deactivated")
    else
      match getAttr user "password_hash" with
      | none => (t, Except.error "KeyError password_hash")
      | some ph =>
        if ph ≠ DVal.s (hashF password) then (t, Except.error "Invalid password")
        else
          match getAttr user "user_id" with
          | some (DVal.s uid) =>
            (update_user_login_stats t uid now statsFault,
             Except.ok (popAttr user "password_hash"))
          | _ => (t, Except.error "KeyError user_id")

/-- Character allowed inside a DynamoDB expression placeholder name
(after the leading `#` or `:`): ASCII letter, digit or underscore. -/
def isNameChar (c : Char) : Bool :=
  c.isAlphanum || c = '_'

/-- A nonempty run of placeholder-name characters. -/
def goodNameChars (l : List Char) : Bool :=
  !l.isEmpty && l.all isNameChar

/-- Field names that survive verbatim inside a placeholder. -/
def goodName (s : String) : Bool :=
  goodNameChars s.toList

/-- Valid `ExpressionAttributeNames` key syntax: `#` followed by one or
more alphanumeric/underscore characters. The backend rejects an update
statement whose placeholders break this syntax (ValidationException). -/
def validPlaceholderChars : List Char → Bool
  | [] => false
  | c :: rest => c = '#' && goodNameChars rest

/-- String form of `validPlaceholderChars`. -/
def validPlaceholder (s : String) : Bool :=
  validPlaceholderChars s.toList

/-- One iteration of the expression-builder loop of source lines 254-261:
append `#key = :key, ` to the expression and record the name/value
placeholders, the raw key embedded in both placeholder texts. -/
def buildStep (acc : String × List (String × String) × List (String × DVal))
    (p : String × DVal) : String × List (String × String) × List (String × DVal) :=
  (acc.1 ++ "#" ++ p.1 ++ " = :" ++ p.1 ++ ", ",
   acc.2.1 ++ [("#" ++ p.1, p.1)],
   acc.2.2 ++ [(":" ++ p.1, p.2)])

/-- Python `s.rstrip(", ")`: drop trailing commas and spaces. -/
def rstripCS (s : String) : String :=
  String.mk ((s.toList.reverse.dropWhile (fun c => c = ',' || c = ' ')).reverse)

/-- The update-expression builder of source lines 250-263: the
`UpdateExpression` string, the `ExpressionAttributeNames` map and the
`ExpressionAttributeValues` map built from the field mapping. -/
def buildUpdateExpr (data : List (String × DVal)) :
    String × List (String × String) × List (String × DVal) :=
  let folded := data.foldl buildStep ("SET ", [], [])
  (rstripCS folded.1, folded.2.1, folded.2.2)

/-- The dict comprehension of source line 241: drop every key in
`forbidden_fields`. -/
def removeForbidden : List (String × DVal) → List (String × DVal)
  | [] => []
  | p :: rest =>
    if forbidden_fields.contains p.1 then removeForbidden rest
    else p :: removeForbidden rest

/-- Apply the `SET` assignments of an update expression to an item. -/
def applyUpdates : Item → List (String × DVal) → Item
  | it, [] => it
  | it, p :: rest => applyUpdates (setAttr it p.1 p.2) rest

/-- `update_user` (source lines 233-282): filter the immutable keys, fail
with the no-fields error if nothing remains, set `updated_at = now`,
build the parameterized update expression, then a conditional
`update_item` with `ConditionExpression=Attr("user_id").exists()` and
`ReturnValues="ALL_NEW"`. Backend behaviour on a non-faulting call:
a placeholder that breaks the placeholder syntax makes the backend
reject the statement (ValidationException, caught by the generic handler
of line 280); a missing item fails the condition
(`ConditionalCheckFailedException`, mapped to the not-found error at
line 278); otherwise the assignments are applied and the full new item
is returned with `password_hash` popped. -/
def update_user (t : Table) (uid : String) (update_data : List (String × DVal))
    (now : String) (fault : Option String) : Table × Except String Item :=
  let filtered := removeForbidden update_data
  if filtered.isEmpty then (t, Except.error "No valid fields to update")
  else
    let data := setAttr filtered "updated_at" (DVal.s now)
    let built := buildUpdateExpr data
    match fault with
    | some m => (t, Except.error m)
    | none =>
      if built.2.1.all (fun p => validPlaceholder p.1) then
        match lookupKey t uid with
        | none => (t, Except.error "User not found")
        | some it =>
          let newIt := applyUpdates it data
          (replaceAt t uid newIt, Except.ok (popAttr newIt "password_hash"))
      else (t, Except.error "ValidationException invalid UpdateExpression")

/-- `delete_user` (source lines 284-296): soft delete, implemented as
`update_user(user_id, dict(active = False))`. -/
def delete_user (t : Table) (uid now : String) (fault : Option String) :
    Table × Except String Unit :=
  match update_user t uid [("active", DVal.b false)] now fault with
  | (t2, Except.error m) => (t2, Except.error m)
  | (t2, Except.ok _) => (t2, Except.ok ())

/-- The `FilterExpression=Attr("active").eq(True)` scan filter of source
line 306. -/
def filterActive : Table → Table
  | [] => []
  | it :: rest =>
    if getAttr it "active" = some (DVal.b true) then it :: filterActive rest
    else filterActive rest

/-- Pop `password_hash` from every scanned item (source lines 312-313). -/
def stripAll : List Item → List Item
  | [] => []
  | it :: rest => popAttr it "password_hash" :: stripAll rest

/-- `get_all_users` (source lines 298-319): full scan, optionally
filtered server-side to `active = true`, with `password_hash` popped from
every returned item; any exception `m` is returned as `str(e)`. -/
def get_all_users (t : Table) (active_only : Bool) (fault : Option String) :
    Except String (List Item) :=
  match fault with
  | some m => Except.error m
  | none => Except.ok (stripAll (if active_only then filterActive t else t))

/-- Concrete fixture: an account stored by a successful
`insert_user("alice", "a@x.com", "pw1")` under uuid `u1` at time `T0`,
with the digest function instantiated to the identity for concrete
evaluation (the store treats the digest as an opaque string). -/
def aliceItem : Item :=
  [("user_id", DVal.s "u1"),
   ("username", DVal.s "alice"),
   ("email", DVal.s "a@x.com"),
   ("password_hash", DVal.s "pw1"),
   ("created_at", DVal.s "T0"),
   ("updated_at", DVal.s "T0"),
   ("verified", DVal.b false),
   ("active", DVal.b true),
   ("login_count", DVal.i 0),
   ("last_login", DVal.null),
   ("profile_data", DVal.doc "")]

/-! ### Dictionary and table lemmas -/

theorem getAttr_popAttr_self (it : Item) (k : String) :
    getAttr (popAttr it k) k = none := by
  induction it with
  | nil => rfl
  | cons p rest ih =>
    by_cases h : p.1 = k
    · simp [popAttr, h, ih]
    · simp [popAttr, getAttr, h, ih]

theorem getAttr_popAttr_ne (it : Item) (k k' : String) (h : k' ≠ k) :
    getAttr (popAttr it k) k' = getAttr it k' := by
  have h2 : ¬(k = k') := Ne.symm h
  induction it with
  | nil => rfl
  | cons p rest ih =>
    by_cases hp : p.1 = k
    · simp [popAttr, getAttr, hp, h, h2, ih]
    · by_cases hq : p.1 = k'
      · simp [popAttr, getAttr, hp, hq, h, h2]
      · simp [popAttr, getAttr, hp, hq, h, h2, ih]

theorem hasAttr_popAttr_self (it : Item) (k : String) :
    hasAttr (popAttr it k) k = false := by
  simp [hasAttr, getAttr_popAttr_self]

theorem getAttr_setAttr_self (it : Item) (k : String) (v : DVal) :
    getAttr (setAttr it k v) k = some v := by
  induction it with
  | nil => simp [setAttr, getAttr]
  | cons p rest ih =>
    by_cases h : p.1 = k
    · simp [setAttr, getAttr, h]
    · simp [setAttr, getAttr, h, ih]

theorem getAttr_setAttr_ne (it : Item) (k k' : String) (v : DVal) (h : k' ≠ k) :
    getAttr (setAttr it k v) k' = getAttr it k' := by
  have h2 : ¬(k = k') := Ne.symm h
  induction it with
  | nil => simp [setAttr, getAttr, h2]
  | cons p rest ih =>
    by_cases hp : p.1 = k
    · simp [setAttr, getAttr, hp, h, h2, ih]
    · by_cases hq : p.1 = k'
      · simp [setAttr, getAttr, hp, hq, h, h2]
      · simp [setAttr, getAttr, hp, hq, h, h2, ih]

theorem lookupKey_attr (t : Table) (uid : String) (u : Item)
    (h : lookupKey t uid = some u) : getAttr u "user_id" = some (DVal.s uid) := by
  induction t with
  | nil => exact absurd h (by simp [lookupKey])
  | cons it rest ih =>
    by_cases hit : getAttr it "user_id" = some (DVal.s uid)
    · rw [lookupKey, if_pos hit] at h
      cases h
      exact hit
    · rw [lookupKey, if_neg hit] at h
      exact ih h

theorem lookupKey_replaceAt (t : Table) (uid : String) (u newIt : Item)
    (h : lookupKey t uid = some u)
    (h2 : getAttr newIt "user_id" = some (DVal.s uid)) :
    lookupKey (replaceAt t uid newIt) uid = some newIt := by
  induction t with
  | nil => exact absurd h (by simp [lookupKey])
  | cons it rest ih =>
    by_cases hit : getAttr it "user_id" = some (DVal.s uid)
    · rw [replaceAt, if_pos hit, lookupKey, if_pos h2]
    · rw [lookupKey, if_neg hit] at h
      rw [replaceAt, if_neg hit, lookupKey, if_neg hit]
      exact ih h

theorem countKey_of_lookupKey_none (t : Table) (uid : String)
    (h : lookupKey t uid = none) : countKey t uid = 0 := by
  induction t with
  | nil => rfl
  | cons it rest ih =>
    by_cases hit : getAttr it "user_id" = some (DVal.s uid)
    · rw [lookupKey, if_pos hit] at h
      cases h
    · rw [lookupKey, if_neg hit] at h
      rw [countKey, if_neg hit, ih h]

theorem countKey_append (t1 t2 : Table) (uid : String) :
    countKey (t1 ++ t2) uid = countKey t1 uid + countKey t2 uid := by
  induction t1 with
  | nil => simp [countKey]
  | cons it rest ih =>
    simp only [List.cons_append, countKey, List.append_eq, ih]
    omega

theorem removeForbidden_nil_of_all (data : List (String × DVal))
    (h : ∀ p ∈ data, p.1 ∈ forbidden_fields) : removeForbidden data = [] := by
  induction data with
  | nil => rfl
  | cons p rest ih =>
    have hp : forbidden_fields.contains p.1 = true := by
      have hm := h p (by simp)
      simpa [List.contains, List.elem_iff] using hm
    rw [removeForbidden, if_pos hp]
    exact ih fun q hq => h q (by simp [hq])

theorem removeForbidden_sub (data : List (String × DVal)) (p : String × DVal)
    (h : p ∈ removeForbidden data) : p ∈ data := by
  induction data with
  | nil => exact absurd h (by simp [removeForbidden])
  | cons q rest ih =>
    by_cases hq : forbidden_fields.contains q.1
    · rw [removeForbidden, if_pos hq] at h
      exact List.mem_cons_of_mem q (ih h)
    · rw [removeForbidden, if_neg hq] at h
      rcases List.mem_cons.mp h with h1 | h2
      · exact h1 ▸ List.mem_cons_self q rest
      · exact List.mem_cons_of_mem q (ih h2)

theorem mem_setAttr (d : List (String × DVal)) (k : String) (v : DVal)
    (p : String × DVal) (h : p ∈ setAttr d k v) : p ∈ d ∨ p.1 = k := by
  induction d with
  | nil =>
    simp [setAttr] at h
    right
    rw [h]
  | cons q rest ih =>
    by_cases hq : q.1 = k
    · rw [setAttr, if_pos hq] at h
      rcases List.mem_cons.mp h with h1 | h2
      · right
        rw [h1]
      · left
        exact List.mem_cons_of_mem q h2
    · rw [setAttr, if_neg hq] at h
      rcases List.mem_cons.mp h with h1 | h2
      · left
        exact h1 ▸ List.mem_cons_self q rest
      · rcases ih h2 with h3 | h3
        · left
          exact List.mem_cons_of_mem q h3
        · right
          exact h3

theorem stripAll_no_hash (l : List Item) :
    ∀ it ∈ stripAll l, hasAttr it "password_hash" = false := by
  induction l with
  | nil => intro it h; exact absurd h (by simp [stripAll])
  | cons it0 rest ih =>
    intro it h
    rcases List.mem_cons.mp h with h1 | h2
    · rw [h1]
      exact hasAttr_popAttr_self it0 "password_hash"
    · exact ih it h2

theorem foldl_buildStep_names (data : List (String × DVal))
    (acc : String × List (String × String) × List (String × DVal)) :
    (data.foldl buildStep acc).2.1
      = acc.2.1 ++ data.map (fun p => ("#" ++ p.1, p.1)) := by
  induction data generalizing acc with
  | nil => simp
  | cons p rest ih =>
    simp only [List.foldl_cons, List.map_cons, ih, buildStep]
    simp

theorem buildUpdateExpr_names (data : List (String × DVal)) :
    (buildUpdateExpr data).2.1 = data.map (fun p => ("#" ++ p.1, p.1)) := by
  simp [buildUpdateExpr, foldl_buildStep_names]

theorem toList_hash_append (k : String) :
    String.toList ("#" ++ k) = '#' :: String.toList k := by
  obtain ⟨l⟩ := k
  rfl

theorem validPlaceholder_hash_of_goodName (k : String) (h : goodName k = true) :
    validPlaceholder ("#" ++ k) = true := by
  rw [validPlaceholder, toList_hash_append, validPlaceholderChars]
  simp only [goodName] at h
  simp only [String.toList] at h ⊢
  simp [h]

theorem buildUpdateExpr_all_valid (d : List (String × DVal))
    (h : ∀ p ∈ d, goodName p.1 = true) :
    ((buildUpdateExpr d).2.1.all fun p => validPlaceholder p.1) = true := by
  rw [buildUpdateExpr_names, List.all_eq_true]
  intro p hp
  rcases List.mem_map.mp hp with ⟨q, hq, rfl⟩
  exact validPlaceholder_hash_of_goodName q.1 (h q hq)

theorem good_after_filter_and_stamp (data : List (String × DVal)) (now : String)
    (h : ∀ p ∈ data, goodName p.1 = true) :
    ∀ p ∈ setAttr (removeForbidden data) "updated_at" (DVal.s now),
      goodName p.1 = true := by
  intro p hp
  rcases mem_setAttr (removeForbidden data) "updated_at" (DVal.s now) p hp with h1 | h2
  · exact h p (removeForbidden_sub data p h1)
  · rw [h2]
    decide

/-! ### Claim theorems -/

/-- C1: for every table, index snapshot, input and backend fault pattern,
the success payload of `get_user_by_id` (get_by_id), `insert_user`
(create), `authenticate_user`, `update_user` and `get_all_users` (list)
never contains the `password_hash` (credential hash) attribute.
`delete_user` (soft_delete) returns no record at all, so it carries no
field whatsoever. -/
theorem c1_no_credential_hash_in_responses
    (t view : Table) (hashF : String → String)
    (username email password pw uid now : String) (additional : Option DVal)
    (data : List (String × DVal)) (f1 f2 f3 f4 f5 f6 : Option String) (ao : Bool) :
    (∀ it, get_user_by_id t uid f1 = some it → hasAttr it "password_hash" = false) ∧
    (∀ it, (insert_user t view hashF username email password additional uid now f2 f3).2
        = Except.ok it → hasAttr it "password_hash" = false) ∧
    (∀ it, (authenticate_user t view hashF email pw now f4 f5).2
        = Except.ok it → hasAttr it "password_hash" = false) ∧
    (∀ it, (update_user t uid data now f6).2
        = Except.ok it → hasAttr it "password_hash" = false) ∧
    (∀ l it, get_all_users t ao f6 = Except.ok l → it ∈ l →
        hasAttr it "password_hash" = false) := by
  refine ⟨?_, ?_, ?_, ?_, ?_⟩
  · intro it h
    simp only [get_user_by_id] at h
    split at h
    · cases h
    · split at h
      · cases h
        exact hasAttr_popAttr_self _ _
      · cases h
  · intro it h
    simp only [insert_user] at h
    split at h
    · cases h
    · split at h
      · cases h
      · split at h
        · split at h
          · cases h
          · cases h
            exact hasAttr_popAttr_self _ _
        · cases h
          exact hasAttr_popAttr_self _ _
  · intro it h
    simp only [authenticate_user] at h
    split at h
    · cases h
    · split at h
      · cases h
      · split at h
        · cases h
        · split at h
          · cases h
          · split at h
            · cases h
              exact hasAttr_popAttr_self _ _
            · cases h
  · intro it h
    simp only [update_user] at h
    split at h
    · cases h
    · split at h
      · cases h
      · split at h
        · split at h
          · cases h
          · cases h
            exact hasAttr_popAttr_self _ _
        · cases h
  · intro l it h hm
    simp only [get_all_users] at h
    split at h
    · cases h
    · cases h
      exact stripAll_no_hash _ it hm

/-- C1 witness: at a concrete table each operation is run to a concrete
success payload and the absence of `password_hash` is checked there. -/
theorem c1_no_credential_hash_in_responses_witness :
    hasAttr (popAttr aliceItem "password_hash") "password_hash" = false ∧
    hasAttr (popAttr (freshAccountItem (fun s => s) "bob" "b@x.com" "pw2" none "u2" "T1")
      "password_hash") "password_hash" = false := by
  constructor
  · exact (c1_no_credential_hash_in_responses [aliceItem] [aliceItem] (fun s => s)
      "alice" "a@x.com" "pw1" "pw1" "u1" "T1" none [("username", DVal.s "al")]
      none none none none none none true).1 (popAttr aliceItem "password_hash") (by rfl)
  · exact (c1_no_credential_hash_in_responses [] [] (fun s => s)
      "bob" "b@x.com" "pw2" "pw2" "u2" "T1" none [("username", DVal.s "b")]
      none none none none none none true).2.1
      (popAttr (freshAccountItem (fun s => s) "bob" "b@x.com" "pw2" none "u2" "T1")
        "password_hash") (by rfl)

/-- C2: evaluation at the failing input. The table already stores
`aliceItem` with email `a@x.com`; a second create for the same email runs
its pre-check against the lagging email-index snapshot (empty, the TOCTOU
window the pre-check has by design) and so reaches the conditional put.
The put condition `attribute_not_exists(email)` is evaluated against the
item stored under the NEW record's fresh key `u2` — there is none — so
the condition passes: the put succeeds instead of failing, `insert_user`
returns success instead of the duplicate-email error, and the table ends
up with two records whose email is `a@x.com`. -/
theorem c2_conditional_put_not_authoritative :
    (insert_user [aliceItem] [] (fun s => s) "bob" "A@X.com" "pw2" none "u2" "T1"
        none none).2
      = Except.ok (popAttr (freshAccountItem (fun s => s) "bob" "A@X.com" "pw2" none
          "u2" "T1") "password_hash") ∧
    countEmail (insert_user [aliceItem] [] (fun s => s) "bob" "A@X.com" "pw2" none
        "u2" "T1" none none).1 "a@x.com" = 2 := by
  constructor
  · rfl
  · decide

/-- C3 counterexample: `aliceItem` has had N = 0 prior successful
authentications (`login_count = 0`, `last_login = null`), is active, and
its stored digest matches. `authenticate_user` succeeds — but the account
it RETURNS still has `login_count = 0` (not N+1 = 1) and a null
`last_login`, because the source returns the local pre-update dict
fetched before `update_user_login_stats` ran. -/
theorem c3_counterexample :
    (authenticate_user [aliceItem] [aliceItem] (fun s => s) "a@x.com" "pw1" "T1"
        none none).2 = Except.ok (popAttr aliceItem "password_hash") ∧
    getAttr (popAttr aliceItem "password_hash") "login_count" = some (DVal.i 0) ∧
    getAttr (popAttr aliceItem "password_hash") "last_login" = some DVal.null := by
  refine ⟨by rfl, by decide, by decide⟩

/-- C3 amended: under the same hypotheses (account found by the email
lookup, active, digest match, `login_count = n`, stats update not
faulting), `authenticate_user` succeeds; the STORED record is atomically
updated to `login_count = n + 1` with a non-null `last_login = now` (and
`updated_at = now`), while the RETURNED account is the pre-update
snapshot: `login_count = n` and `last_login` still the previously stored
value. -/
theorem c3_login_stats_amended
    (t view : Table) (hashF : String → String) (email password now uid : String)
    (user : Item) (n : Int)
    (hview : get_user_by_email view email none = some user)
    (hact : getAttr user "active" = some (DVal.b true))
    (hph : getAttr user "password_hash" = some (DVal.s (hashF password)))
    (hid : getAttr user "user_id" = some (DVal.s uid))
    (hlc : getAttr user "login_count" = some (DVal.i n))
    (hstore : lookupKey t uid = some user) :
    (authenticate_user t view hashF email password now none none).2
      = Except.ok (popAttr user "password_hash") ∧
    getAttr (popAttr user "password_hash") "login_count" = some (DVal.i n) ∧
    (∃ u2, lookupKey (authenticate_user t view hashF email password now none none).1 uid
        = some u2 ∧
      getAttr u2 "login_count" = some (DVal.i (n + 1)) ∧
      getAttr u2 "last_login" = some (DVal.s now) ∧
      getAttr u2 "updated_at" = some (DVal.s now)) := by
  have hafl : activeFlag user = true := by
    rw [activeFlag, hact]
    rfl
  have hauth : authenticate_user t view hashF email password now none none
      = (update_user_login_stats t uid now none, Except.ok (popAttr user "password_hash")) := by
    simp [authenticate_user, hview, hafl, hph, hid]
  have hstats : update_user_login_stats t uid now none
      = replaceAt t uid (setAttr (setAttr (setAttr user "last_login" (DVal.s now))
          "login_count" (DVal.i (n + 1))) "updated_at" (DVal.s now)) := by
    simp [update_user_login_stats, hstore, hlc]
  have hu2id : getAttr (setAttr (setAttr (setAttr user "last_login" (DVal.s now))
      "login_count" (DVal.i (n + 1))) "updated_at" (DVal.s now)) "user_id"
      = some (DVal.s uid) := by
    rw [getAttr_setAttr_ne _ _ _ _ (by decide), getAttr_setAttr_ne _ _ _ _ (by decide),
      getAttr_setAttr_ne _ _ _ _ (by decide)]
    exact hid
  refine ⟨by rw [hauth], ?_,
    ⟨setAttr (setAttr (setAttr user "last_login" (DVal.s now)) "login_count"
      (DVal.i (n + 1))) "updated_at" (DVal.s now), ?_, ?_, ?_, ?_⟩⟩
  · rw [getAttr_popAttr_ne _ _ _ (by decide)]
    exact hlc
  · rw [hauth]
    show lookupKey (update_user_login_stats t uid now none) uid = some _
    rw [hstats]
    exact lookupKey_replaceAt t uid user _ hstore hu2id
  · rw [getAttr_setAttr_ne _ _ _ _ (by decide), getAttr_setAttr_self]
  · rw [getAttr_setAttr_ne _ _ _ _ (by decide),
      getAttr_setAttr_ne _ _ _ _ (by decide), getAttr_setAttr_self]
  · rw [getAttr_setAttr_self]

/-- C3 amended, witness at the concrete fixture: first authentication of
`aliceItem` (n = 0). -/
theorem c3_login_stats_amended_witness :
    (authenticate_user [aliceItem] [aliceItem] (fun s => s) "a@x.com" "pw1" "T1"
        none none).2 = Except.ok (popAttr aliceItem "password_hash") ∧
    getAttr (popAttr aliceItem "password_hash") "login_count" = some (DVal.i 0) ∧
    (∃ u2, lookupKey (authenticate_user [aliceItem] [aliceItem] (fun s => s) "a@x.com"
        "pw1" "T1" none none).1 "u1" = some u2 ∧
      getAttr u2 "login_count" = some (DVal.i (0 + 1)) ∧
      getAttr u2 "last_login" = some (DVal.s "T1") ∧
      getAttr u2 "updated_at" = some (DVal.s "T1")) :=
  c3_login_stats_amended [aliceItem] [aliceItem] (fun s => s) "a@x.com" "pw1" "T1"
    "u1" aliceItem 0 (by rfl) (by decide) (by decide) (by decide) (by decide) (by decide)

/-- C4: evaluation at the failing input. The password matches and the
account is active, but the backend update of the login statistics raises
(`statsFault = some "boom"`). `update_user_login_stats` catches and
swallows the exception (source lines 230-231) and `authenticate_user`
ignores its outcome (line 206), so the call still returns success with
the table (hence `login_count` and `last_login`) unchanged — the claim
requires the whole authenticate call to fail here. -/
theorem c4_stats_failure_swallowed :
    authenticate_user [aliceItem] [aliceItem] (fun s => s) "a@x.com" "pw1" "T1"
        none (some "boom")
      = ([aliceItem], Except.ok (popAttr aliceItem "password_hash")) := by
  rfl

/-- C5: for every stored account, an update supplying `user_id` (id),
`password_hash` (credential_hash) and `username` silently drops the
immutable keys and changes only `username` and `updated_at` — `user_id`,
`password_hash`, `created_at` and every other attribute of the stored
record are unchanged — and any update whose field mapping contains only
keys of the immutable set `dict(user_id, password_hash, created_at)`
fails with the no-fields error while leaving the table untouched, for
every backend fault pattern (the backend is never consulted). -/
theorem c5_update_drops_immutable_keys
    (t : Table) (uid x y z now : String) (user : Item)
    (hstore : lookupKey t uid = some user) :
    (∃ u2,
      update_user t uid
          [("user_id", DVal.s x), ("password_hash", DVal.s y), ("username", DVal.s z)]
          now none
        = (replaceAt t uid u2, Except.ok (popAttr u2 "password_hash")) ∧
      lookupKey (update_user t uid
          [("user_id", DVal.s x), ("password_hash", DVal.s y), ("username", DVal.s z)]
          now none).1 uid = some u2 ∧
      getAttr u2 "username" = some (DVal.s z) ∧
      getAttr u2 "updated_at" = some (DVal.s now) ∧
      getAttr u2 "user_id" = getAttr user "user_id" ∧
      getAttr u2 "password_hash" = getAttr user "password_hash" ∧
      getAttr u2 "created_at" = getAttr user "created_at" ∧
      (∀ k, k ≠ "username" → k ≠ "updated_at" → getAttr u2 k = getAttr user k)) ∧
    (∀ data fault, (∀ p ∈ data, p.1 ∈ forbidden_fields) →
      update_user t uid data now fault = (t, Except.error "No valid fields to update")) := by
  have hup : update_user t uid
      [("user_id", DVal.s x), ("password_hash", DVal.s y), ("username", DVal.s z)] now none
      = (replaceAt t uid (setAttr (setAttr user "username" (DVal.s z)) "updated_at" (DVal.s now)),
         Except.ok (popAttr (setAttr (setAttr user "username" (DVal.s z)) "updated_at" (DVal.s now))
          "password_hash")) := by
    simp only [update_user]
    have hfil : removeForbidden
        [("user_id", DVal.s x), ("password_hash", DVal.s y), ("username", DVal.s z)]
        = [("username", DVal.s z)] := by
      rfl
    rw [hfil]
    simp only [List.isEmpty_cons, Bool.false_eq_true, if_false, hstore]
    rfl
  have hfr : ∀ k, k ≠ "username" → k ≠ "updated_at" →
      getAttr (setAttr (setAttr user "username" (DVal.s z)) "updated_at" (DVal.s now)) k
        = getAttr user k := by
    intro k h1 h2
    rw [getAttr_setAttr_ne _ _ _ _ h2, getAttr_setAttr_ne _ _ _ _ h1]
  constructor
  · refine ⟨setAttr (setAttr user "username" (DVal.s z)) "updated_at" (DVal.s now),
      hup, ?_, ?_, ?_, ?_, ?_, ?_, hfr⟩
    · rw [hup]
      have hu2id : getAttr (setAttr (setAttr user "username" (DVal.s z)) "updated_at"
          (DVal.s now)) "user_id" = some (DVal.s uid) := by
        rw [hfr "user_id" (by decide) (by decide)]
        exact lookupKey_attr t uid user hstore
      exact lookupKey_replaceAt t uid user _ hstore hu2id
    · rw [getAttr_setAttr_ne _ _ _ _ (by decide), getAttr_setAttr_self]
    · rw [getAttr_setAttr_self]
    · exact hfr "user_id" (by decide) (by decide)
    · exact hfr "password_hash" (by decide) (by decide)
    · exact hfr "created_at" (by decide) (by decide)
  · intro data fault hall
    simp only [update_user, removeForbidden_nil_of_all data hall]
    rfl

/-- C5 witness: concrete run against the stored `aliceItem`. -/
theorem c5_update_drops_immutable_keys_witness :
    (∃ u2,
      update_user [aliceItem] "u1"
          [("user_id", DVal.s "X"), ("password_hash", DVal.s "Y"), ("username", DVal.s "Z")]
          "T2" none
        = (replaceAt [aliceItem] "u1" u2, Except.ok (popAttr u2 "password_hash")) ∧
      lookupKey (update_user [aliceItem] "u1"
          [("user_id", DVal.s "X"), ("password_hash", DVal.s "Y"), ("username", DVal.s "Z")]
          "T2" none).1 "u1" = some u2 ∧
      getAttr u2 "username" = some (DVal.s "Z") ∧
      getAttr u2 "updated_at" = some (DVal.s "T2") ∧
      getAttr u2 "user_id" = getAttr aliceItem "user_id" ∧
      getAttr u2 "password_hash" = getAttr aliceItem "password_hash" ∧
      getAttr u2 "created_at" = getAttr aliceItem "created_at" ∧
      (∀ k, k ≠ "username" → k ≠ "updated_at" → getAttr u2 k = getAttr aliceItem k)) ∧
    (∀ data fault, (∀ p ∈ data, p.1 ∈ forbidden_fields) →
      update_user [aliceItem] "u1" data "T2" fault
        = ([aliceItem], Except.error "No valid fields to update")) :=
  c5_update_drops_immutable_keys [aliceItem] "u1" "X" "Y" "Z" "T2" aliceItem (by decide)

/-- C6 counterexample: the caller-supplied field name `"a b"` is not in
the immutable set, so the filter accepts it, and the builder of source
lines 250-263 parameterizes it as the name placeholder `"#a b"` — the raw
name embedded in the placeholder text. That text breaks the backend's
placeholder syntax (`#` followed by alphanumerics/underscore only), so
the generated update statement is rejected by the backend instead of
being tolerated: `update_user` on a stored record returns the validation
error, refuting the claim that arbitrary accepted field names neither
corrupt the statement nor cause it to be rejected. -/
theorem c6_counterexample :
    removeForbidden [("a b", DVal.s "v")] = [("a b", DVal.s "v")] ∧
    (buildUpdateExpr [("a b", DVal.s "v"), ("updated_at", DVal.s "T2")]).2.1
      = [("#a b", "a b"), ("#updated_at", "updated_at")] ∧
    validPlaceholder "#a b" = false ∧
    update_user [aliceItem] "u1" [("a b", DVal.s "v")] "T2" none
      = ([aliceItem], Except.error "ValidationException invalid UpdateExpression") := by
  refine ⟨by decide, by decide, by decide, by rfl⟩

/-- C6 amended: every accepted field name is parameterized independently
through its own name/value placeholder pair (`#name` mapping back to the
raw name), which tolerates collisions with the backend's reserved
vocabulary; but because the placeholder text embeds the raw name, this
only protects names built from alphanumerics/underscore — for such field
mappings every generated placeholder is syntactically valid and the
update statement is never rejected for its syntax. -/
theorem c6_placeholders_amended
    (data : List (String × DVal)) (t : Table) (uid now : String)
    (hgood : ∀ p ∈ data, goodName p.1 = true)
    (hne : removeForbidden data ≠ []) :
    ((buildUpdateExpr (setAttr (removeForbidden data) "updated_at" (DVal.s now))).2.1
      = (setAttr (removeForbidden data) "updated_at" (DVal.s now)).map
          (fun p => ("#" ++ p.1, p.1))) ∧
    ((buildUpdateExpr (setAttr (removeForbidden data) "updated_at" (DVal.s now))).2.1.all
      fun p => validPlaceholder p.1) = true ∧
    (update_user t uid data now none).2
      ≠ Except.error "ValidationException invalid UpdateExpression" := by
  have hall : ((buildUpdateExpr (setAttr (removeForbidden data) "updated_at"
      (DVal.s now))).2.1.all fun p => validPlaceholder p.1) = true :=
    buildUpdateExpr_all_valid _ (good_after_filter_and_stamp data now hgood)
  refine ⟨buildUpdateExpr_names _, hall, ?_⟩
  simp only [update_user]
  rw [if_neg (by simpa [List.isEmpty_iff] using hne)]
  simp only [hall, if_true]
  split
  · intro h
    exact absurd (Except.error.inj h) (by decide)
  · intro h
    exact Except.noConfusion h

/-- C6 amended, witness: the field name `name` — a reserved word of the
backend's expression vocabulary — is accepted, parameterized as `#name`,
and not rejected. -/
theorem c6_placeholders_amended_witness :
    ((buildUpdateExpr (setAttr (removeForbidden [("name", DVal.s "bob")]) "updated_at"
        (DVal.s "T2"))).2.1
      = (setAttr (removeForbidden [("name", DVal.s "bob")]) "updated_at"
          (DVal.s "T2")).map (fun p => ("#" ++ p.1, p.1))) ∧
    ((buildUpdateExpr (setAttr (removeForbidden [("name", DVal.s "bob")]) "updated_at"
        (DVal.s "T2"))).2.1.all fun p => validPlaceholder p.1) = true ∧
    (update_user [aliceItem] "u1" [("name", DVal.s "bob")] "T2" none).2
      ≠ Except.error "ValidationException invalid UpdateExpression" :=
  c6_placeholders_amended [("name", DVal.s "bob")] [aliceItem] "u1" "T2"
    (by decide) (by decide)

/-- C7 counterexample: an unexpected backend fault during the conditional
put of `insert_user` is caught by the generic handler of source lines
145-147, which returns `(None, str(e))` — the raw backend error message
crosses the store boundary verbatim as the error value instead of being
mapped to a generic `InternalError` kind. -/
theorem c7_counterexample :
    (insert_user [] [] (fun s => s) "alice" "a@x.com" "pw1" none "u1" "T0" none
        (some "ConnectionError raw backend failure")).2
      = Except.error "ConnectionError raw backend failure" := by
  rfl

/-- C7 amended: every backend exception is caught at the store boundary
and each operation always returns a structured pair of table and
`Except` result — no unhandled fault ever reaches the caller — but an
unexpected backend fault with message `m` is reported by passing `m`
itself through as the error string (and leaves the table unchanged),
rather than being mapped to a generic `InternalError` kind. -/
theorem c7_errors_amended
    (t : Table) (hashF : String → String)
    (username email password uid now m : String) (additional : Option DVal)
    (v : DVal) (data : List (String × DVal)) (ao : Bool) :
    insert_user t [] hashF username email password additional uid now none (some m)
      = (t, Except.error m) ∧
    update_user t uid (("username", v) :: data) now (some m) = (t, Except.error m) ∧
    get_all_users t ao (some m) = Except.error m := by
  refine ⟨by rfl, ?_, by rfl⟩
  simp only [update_user, removeForbidden]
  rfl

/-- C8: updating a nonexistent id with at least one mutable,
well-formed field fails the backend conditional-update condition
`attribute_exists(user_id)` (there is no record with this id to satisfy
it), which the handler of source line 278 maps to the not-found error;
the table is returned unchanged — no backend write happens. The
well-formedness hypothesis on the field names excludes the
malformed-placeholder rejection documented under the C6 theorems. -/
theorem c8_update_missing_id_not_found
    (t : Table) (uid now : String) (data : List (String × DVal))
    (habs : lookupKey t uid = none)
    (hgood : ∀ p ∈ data, goodName p.1 = true)
    (hne : removeForbidden data ≠ []) :
    update_user t uid data now none = (t, Except.error "User not found") := by
  have hall : ((buildUpdateExpr (setAttr (removeForbidden data) "updated_at"
      (DVal.s now))).2.1.all fun p => validPlaceholder p.1) = true :=
    buildUpdateExpr_all_valid _ (good_after_filter_and_stamp data now hgood)
  simp only [update_user]
  rw [if_neg (by simpa [List.isEmpty_iff] using hne)]
  simp only [hall, if_true, habs]

/-- C8 witness: updating `username` on an empty table returns the
not-found error and the (empty) table unchanged. -/
theorem c8_update_missing_id_not_found_witness :
    update_user [] "u9" [("username", DVal.s "x")] "T2" none
      = ([], Except.error "User not found") :=
  c8_update_missing_id_not_found [] "u9" "T2" [("username", DVal.s "x")]
    (by decide) (by decide) (by decide)

/-- C9: when the pre-check finds no record for the email and the
generated uuid is fresh (no stored record carries it — uuid uniqueness
itself lives outside the code), `insert_user` appends exactly the item of
source lines 117-129 and returns it with the digest stripped: the stored
record has the freshly generated unique id (exactly one record holds it),
email lowercased, `verified = false`, `active = true`, `login_count = 0`,
`last_login = null`, `created_at = updated_at = now`, and its stored
credential hash equals `hash(password)`. -/
theorem c9_create_success
    (t view : Table) (hashF : String → String)
    (username email password uid now : String) (additional : Option DVal)
    (hpre : get_user_by_email view email none = none)
    (hfresh : lookupKey t uid = none) :
    (insert_user t view hashF username email password additional uid now none none).1
      = t ++ [freshAccountItem hashF username email password additional uid now] ∧
    (insert_user t view hashF username email password additional uid now none none).2
      = Except.ok (popAttr (freshAccountItem hashF username email password additional
          uid now) "password_hash") ∧
    getAttr (freshAccountItem hashF username email password additional uid now) "user_id"
      = some (DVal.s uid) ∧
    getAttr (freshAccountItem hashF username email password additional uid now) "email"
      = some (DVal.s (pyLower email)) ∧
    getAttr (freshAccountItem hashF username email password additional uid now) "verified"
      = some (DVal.b false) ∧
    getAttr (freshAccountItem hashF username email password additional uid now) "active"
      = some (DVal.b true) ∧
    getAttr (freshAccountItem hashF username email password additional uid now) "login_count"
      = some (DVal.i 0) ∧
    getAttr (freshAccountItem hashF username email password additional uid now) "last_login"
      = some DVal.null ∧
    getAttr (freshAccountItem hashF username email password additional uid now) "created_at"
      = some (DVal.s now) ∧
    getAttr (freshAccountItem hashF username email password additional uid now) "updated_at"
      = some (DVal.s now) ∧
    getAttr (freshAccountItem hashF username email password additional uid now) "password_hash"
      = some (DVal.s (hashF password)) ∧
    countKey (insert_user t view hashF username email password additional uid now
        none none).1 uid = 1 := by
  have hins : insert_user t view hashF username email password additional uid now none none
      = (t ++ [freshAccountItem hashF username email password additional uid now],
         Except.ok (popAttr (freshAccountItem hashF username email password additional
          uid now) "password_hash")) := by
    simp [insert_user, hpre, hfresh]
  have hcnt : countKey (t ++ [freshAccountItem hashF username email password additional
      uid now]) uid = 1 := by
    rw [countKey_append, countKey_of_lookupKey_none t uid hfresh]
    simp [countKey, freshAccountItem, getAttr]
  refine ⟨by rw [hins], by rw [hins], rfl, rfl, rfl, rfl, rfl, rfl, rfl, rfl, rfl, ?_⟩
  rw [hins]
  exact hcnt

/-- C9 witness: concrete create on the empty table. -/
theorem c9_create_success_witness :
    (insert_user [] [] (fun s => s) "alice" "A@X.com" "pw1" none "u1" "T0" none none).1
      = [] ++ [freshAccountItem (fun s => s) "alice" "A@X.com" "pw1" none "u1" "T0"] ∧
    (insert_user [] [] (fun s => s) "alice" "A@X.com" "pw1" none "u1" "T0" none none).2
      = Except.ok (popAttr (freshAccountItem (fun s => s) "alice" "A@X.com" "pw1" none
          "u1" "T0") "password_hash") ∧
    getAttr (freshAccountItem (fun s => s) "alice" "A@X.com" "pw1" none "u1" "T0") "user_id"
      = some (DVal.s "u1") ∧
    getAttr (freshAccountItem (fun s => s) "alice" "A@X.com" "pw1" none "u1" "T0") "email"
      = some (DVal.s (pyLower "A@X.com")) ∧
    getAttr (freshAccountItem (fun s => s) "alice" "A@X.com" "pw1" none "u1" "T0") "verified"
      = some (DVal.b false) ∧
    getAttr (freshAccountItem (fun s => s) "alice" "A@X.com" "pw1" none "u1" "T0") "active"
      = some (DVal.b true) ∧
    getAttr (freshAccountItem (fun s => s) "alice" "A@X.com" "pw1" none "u1" "T0") "login_count"
      = some (DVal.i 0) ∧
    getAttr (freshAccountItem (fun s => s) "alice" "A@X.com" "pw1" none "u1" "T0") "last_login"
      = some DVal.null ∧
    getAttr (freshAccountItem (fun s => s) "alice" "A@X.com" "pw1" none "u1" "T0") "created_at"
      = some (DVal.s "T0") ∧
    getAttr (freshAccountItem (fun s => s) "alice" "A@X.com" "pw1" none "u1" "T0") "updated_at"
      = some (DVal.s "T0") ∧
    getAttr (freshAccountItem (fun s => s) "alice" "A@X.com" "pw1" none "u1" "T0") "password_hash"
      = some (DVal.s "pw1") ∧
    countKey (insert_user [] [] (fun s => s) "alice" "A@X.com" "pw1" none "u1" "T0"
        none none).1 "u1" = 1 :=
  c9_create_success [] [] (fun s => s) "alice" "A@X.com" "pw1" "u1" "T0" none
    (by rfl) (by rfl)

/-- C10: a raised backend exception during `get_user_by_id` or the
email-index lookup is caught and converted to `None` — the same value a
missing record produces (shown here against the empty table) — so
callers cannot distinguish the two, and no distinct
`BackendUnavailable`/`Timeout` kind exists on these read paths (the
functions return only an optional record). In particular
`authenticate_user` whose lookup raises reports the user-not-found
outcome with the table unchanged. -/
theorem c10_read_failures_look_like_absence
    (t view : Table) (hashF : String → String)
    (uid email password now m : String) (sf : Option String) :
    get_user_by_id t uid (some m) = none ∧
    get_user_by_id [] uid none = none ∧
    get_user_by_email view email (some m) = none ∧
    get_user_by_email [] email none = none ∧
    authenticate_user t view hashF email password now (some m) sf
      = (t, Except.error "User not found") := by
  exact ⟨rfl, rfl, rfl, rfl, rfl⟩
